import Mathlib

/-!
# Verification of the Trimkart task-tracking backend

Shallow embedding of `src/schemas.py` (Pydantic entity validation) and
`src/main.py` (FastAPI request handlers over a MongoDB document store).

Modelling conventions:
* MongoDB `ObjectId` values are modelled as `Nat`; their canonical string
  form is `toString`; `oid` parses a decimal digit string (`bson.ObjectId`
  parsing, abstracted to an injective string representation of ids).
* UTC timestamps (`datetime.now(timezone.utc)`) are modelled as `Nat` and the
  current time is an explicit `now` argument to each handler.
* The bcrypt `CryptContext` is an external collaborator: `register` takes an
  abstract `hash : String → String` and `login` an abstract
  `verify : String → String → Bool` argument.
* The document store (`db` with collections `user` and `task`) is an explicit
  `Store` value threaded through each handler; every handler returns the
  response (`Except HTTPError α`, mirroring `raise HTTPException`) together
  with the resulting store, errors leaving the store as it was, exactly as an
  exception raised before/without a write leaves the database untouched.
* Mongo `update_one` updates the first matching document (`updateFirst`);
  `matched_count == 0` corresponds to no element satisfying the filter.
-/

/-- `raise HTTPException(status_code=..., detail=...)` from `src/main.py`. -/
structure HTTPError where
  status : Nat
  detail : String
deriving DecidableEq, Repr

instance {ε α : Type} [DecidableEq ε] [DecidableEq α] : DecidableEq (Except ε α) :=
  fun a b =>
    match a, b with
    | .error x, .error y =>
        decidable_of_iff (x = y) ⟨fun h => h ▸ rfl, fun h => by cases h; rfl⟩
    | .ok x, .ok y =>
        decidable_of_iff (x = y) ⟨fun h => h ▸ rfl, fun h => by cases h; rfl⟩
    | .error _, .ok _ => isFalse (fun h => by cases h)
    | .ok _, .error _ => isFalse (fun h => by cases h)

namespace Schemas

/-- `RoleType = Literal["MD", "CEO", "COO", "MANAGER", "EMPLOYEE"]` (schemas.py). -/
def roleValues : List String := ["MD", "CEO", "COO", "MANAGER", "EMPLOYEE"]

/-- `TaskStatus = Literal["PENDING", "IN_PROGRESS", "COMPLETED"]` (schemas.py). -/
def statusValues : List String := ["PENDING", "IN_PROGRESS", "COMPLETED"]

/-- Raw registration body before Pydantic validation (`class UserRegister`,
schemas.py lines 27-32).  `role` and `department_id` may be omitted. -/
structure UserRegisterInput where
  name : String
  email : String
  password : String
  role : Option String := none
  department_id : Option String := none
deriving DecidableEq, Repr

/-- Validated `UserRegister` value (defaults applied). -/
structure UserRegister where
  name : String
  email : String
  password : String
  role : String
  department_id : Option String
deriving DecidableEq, Repr

/-- Validated `UserLogin` value (schemas.py lines 34-36). -/
structure UserLogin where
  email : String
  password : String
deriving DecidableEq, Repr

/-- `class TaskUpdateEntry` (schemas.py lines 38-42): the same shape is the raw
body and the validated value, since validation only checks the `progress`
range (`Field(None, ge=0, le=100)`). -/
structure TaskUpdateEntry where
  user_id : String
  note : Option String := none
  progress : Option Int := none
  created_at : Option Nat := none
deriving DecidableEq, Repr

/-- Raw task body before Pydantic validation (`class Task`, schemas.py
lines 44-53); optional fields may be omitted. -/
structure TaskInput where
  title : String
  description : Option String := none
  assigned_to : String
  assigned_by : String
  department_id : Option String := none
  status : Option String := none
  due_date : Option Nat := none
  progress : Option Int := none
  updates : Option (List TaskUpdateEntry) := none
deriving DecidableEq, Repr

/-- Validated `Task` value with defaults applied (`status = "PENDING"`,
`progress = 0`, `updates = []`).  Named `TaskBody` because `Task` is taken by
the Lean core library. -/
structure TaskBody where
  title : String
  description : Option String
  assigned_to : String
  assigned_by : String
  department_id : Option String
  status : String
  due_date : Option Nat
  progress : Int
  updates : List TaskUpdateEntry
deriving DecidableEq, Repr

/-- Models the Pydantic `EmailStr` check, an external collaborator
(`email-validator`): the body must contain an `@` and a `.`.  Only the fact
that some email-format check runs matters to the claims; none depends on its
exact boundary. -/
def isValidEmail (e : String) : Bool :=
  e.data.contains '@' && e.data.contains '.'

/-- Pydantic validation of `TaskUpdateEntry`: the only field constraint is
`progress: Optional[int] = Field(None, ge=0, le=100)`.  A `ValidationError`
enumerates every violated field constraint, modelled as a list of messages. -/
def validateTaskUpdateEntry (r : TaskUpdateEntry) : Except (List String) TaskUpdateEntry :=
  let errs : List String :=
    match r.progress with
    | some p => if p < 0 ∨ 100 < p then ["progress: input should be in [0, 100]"] else []
    | none => []
  if errs.isEmpty then .ok r else .error errs

/-- Pydantic validation of `Task` (schemas.py lines 44-53): `status` must lie
in `TaskStatus` (default `"PENDING"`), `progress` in `[0,100]` (default `0`),
and each embedded `TaskUpdateEntry` must itself validate (default `[]`). -/
def validateTask (r : TaskInput) : Except (List String) TaskBody :=
  let statusErrs : List String :=
    match r.status with
    | some st => if st ∈ statusValues then [] else ["status: invalid enum member"]
    | none => []
  let progressErrs : List String :=
    match r.progress with
    | some p => if p < 0 ∨ 100 < p then ["progress: input should be in [0, 100]"] else []
    | none => []
  let updErrs : List String :=
    (r.updates.getD []).foldr
      (fun e acc =>
        match validateTaskUpdateEntry e with
        | .ok _ => acc
        | .error es => es ++ acc) []
  let errs := statusErrs ++ progressErrs ++ updErrs
  if errs.isEmpty then
    .ok { title := r.title, description := r.description,
          assigned_to := r.assigned_to, assigned_by := r.assigned_by,
          department_id := r.department_id,
          status := r.status.getD "PENDING",
          due_date := r.due_date,
          progress := r.progress.getD 0,
          updates := r.updates.getD [] }
  else .error errs

/-- Pydantic validation of `UserRegister` (schemas.py lines 27-32): `email`
must pass the `EmailStr` check and `role` must lie in `RoleType` (default
`"EMPLOYEE"`).  `name`, `password` and `department_id` are plain `str`
fields: Pydantic imposes no further constraint on them, in particular no
non-emptiness check. -/
def validateUserRegister (r : UserRegisterInput) : Except (List String) UserRegister :=
  let emailErrs : List String :=
    if isValidEmail r.email then [] else ["email: value is not a valid email address"]
  let roleErrs : List String :=
    match r.role with
    | some ro => if ro ∈ roleValues then [] else ["role: invalid enum member"]
    | none => []
  let errs := emailErrs ++ roleErrs
  if errs.isEmpty then
    .ok { name := r.name, email := r.email, password := r.password,
          role := r.role.getD "EMPLOYEE", department_id := r.department_id }
  else .error errs

end Schemas

/-- A document of the `user` collection, as written by `register`
(main.py lines 82-90) plus the store-assigned `_id`. -/
structure UserDoc where
  _id : Nat
  name : String
  email : String
  password_hash : String
  role : String
  department_id : Option String
  created_at : Nat
  updated_at : Nat
deriving DecidableEq, Repr

/-- A task-update entry as stored inside a task document: `add_task_update`
always fills `created_at` before pushing (main.py lines 168-170). -/
structure StoredUpdate where
  user_id : String
  note : Option String
  progress : Option Int
  created_at : Nat
deriving DecidableEq, Repr

/-- A document of the `task` collection, as written by `create_task`
(main.py lines 143-148) plus the store-assigned `_id`. -/
structure TaskDoc where
  _id : Nat
  title : String
  description : Option String
  assigned_to : String
  assigned_by : String
  department_id : Option String
  status : String
  due_date : Option Nat
  progress : Int
  updates : List StoredUpdate
  created_at : Nat
  updated_at : Nat
deriving DecidableEq, Repr

/-- The document store: the `user` and `task` collections in insertion order,
plus the next fresh `ObjectId` the store will assign. -/
structure Store where
  users : List UserDoc
  tasks : List TaskDoc
  nextId : Nat
deriving DecidableEq, Repr

/-- Mongo `update_one`: apply `f` to the first element satisfying `p`,
leaving everything else in place. -/
def updateFirst {α : Type} (p : α → Bool) (f : α → α) : List α → List α
  | [] => []
  | x :: xs => if p x then f x :: xs else x :: updateFirst p f xs

/-- `def oid(id_str)` (main.py lines 28-32): parse the id string into the
native id type of the store, or fail (surfaced as `400 Invalid id format`).
Modelled as parsing the decimal form of the `Nat` id. -/
def oid (id_str : String) : Option Nat :=
  if id_str ≠ "" ∧ id_str.data.all (fun c => c.isDigit) then
    some (id_str.data.foldl (fun n c => n * 10 + (c.toNat - 48)) 0)
  else none

/-- `def get_user_by_email(email)` (main.py lines 35-37):
`db["user"].find_one({"email": email})` returns the first stored user whose
`email` field equals `email` exactly. -/
def get_user_by_email (email : String) (s : Store) : Option UserDoc :=
  s.users.find? (fun u => u.email = email)

/-- `POST /auth/register` (main.py lines 77-92). -/
def register (hash : String → String) (now : Nat) (payload : Schemas.UserRegister)
    (s : Store) : Except HTTPError String × Store :=
  match get_user_by_email payload.email s with
  | some _ => (.error ⟨400, "Email already registered"⟩, s)
  | none =>
      let hashed := hash payload.password
      let doc : UserDoc :=
        { _id := s.nextId, name := payload.name, email := payload.email,
          password_hash := hashed, role := payload.role,
          department_id := payload.department_id,
          created_at := now, updated_at := now }
      (.ok (toString s.nextId), { s with users := s.users ++ [doc], nextId := s.nextId + 1 })

/-- The user record returned by `login` / `list_users`: the store document
with `_id` popped and re-exposed as the string key `id`, and `password_hash`
popped.  The type has no `password_hash` field at all. -/
structure UserOut where
  id : String
  name : String
  email : String
  role : String
  department_id : Option String
  created_at : Nat
  updated_at : Nat
deriving DecidableEq, Repr

/-- Response shaping shared by `login` and `list_users`:
`u["id"] = str(u.pop("_id")); u.pop("password_hash", None)`. -/
def userOut (u : UserDoc) : UserOut :=
  { id := toString u._id, name := u.name, email := u.email, role := u.role,
    department_id := u.department_id, created_at := u.created_at,
    updated_at := u.updated_at }

/-- `POST /auth/login` (main.py lines 95-103).  The success payload is the
shaped user record; the constant `"Login successful"` message is omitted. -/
def login (verify : String → String → Bool) (payload : Schemas.UserLogin)
    (s : Store) : Except HTTPError UserOut × Store :=
  match get_user_by_email payload.email s with
  | none => (.error ⟨401, "Invalid credentials"⟩, s)
  | some u =>
      if verify payload.password u.password_hash then (.ok (userOut u), s)
      else (.error ⟨401, "Invalid credentials"⟩, s)

/-- `if role:` — a Python `Optional[str]` is truthy iff it is a non-empty
string (main.py lines 130-133, 154-159). -/
def strTruthy : Option String → Bool
  | none => false
  | some v => !v.isEmpty

/-- Whether a user document matches the query dict built by `list_users`. -/
def matchesUserQuery (role department_id : Option String) (u : UserDoc) : Bool :=
  (match role with | some r => u.role = r | none => true) &&
  (match department_id with | some d => u.department_id = some d | none => true)

/-- `GET /users` (main.py lines 127-138): the query dict receives a key only
for a truthy parameter; every returned record is shaped by `userOut`. -/
def list_users (role department_id : Option String) (s : Store) : List UserOut :=
  let qrole := if strTruthy role then role else none
  let qdep := if strTruthy department_id then department_id else none
  (s.users.filter (matchesUserQuery qrole qdep)).map userOut

/-- Whether a task document matches the query dict built by `list_tasks`. -/
def matchesTaskQuery (status assigned_to department_id : Option String) (t : TaskDoc) : Bool :=
  (match status with | some v => t.status = v | none => true) &&
  (match assigned_to with | some v => t.assigned_to = v | none => true) &&
  (match department_id with | some v => t.department_id = some v | none => true)

/-- Stable insertion for the `created_at` descending sort of `list_tasks`. -/
def insertByCreatedDesc (t : TaskDoc) : List TaskDoc → List TaskDoc
  | [] => [t]
  | x :: xs => if t.created_at ≤ x.created_at then x :: insertByCreatedDesc t xs
               else t :: x :: xs

/-- `.sort("created_at", -1)`: most recent first. -/
def sortByCreatedDesc (l : List TaskDoc) : List TaskDoc :=
  l.foldr insertByCreatedDesc []

/-- The task record returned by `list_tasks`: `_id` re-exposed as `id`. -/
structure TaskOut where
  id : String
  title : String
  description : Option String
  assigned_to : String
  assigned_by : String
  department_id : Option String
  status : String
  due_date : Option Nat
  progress : Int
  updates : List StoredUpdate
  created_at : Nat
  updated_at : Nat
deriving DecidableEq, Repr

/-- Response shaping of `list_tasks`: `t["id"] = str(t.pop("_id"))`. -/
def taskOut (t : TaskDoc) : TaskOut :=
  { id := toString t._id, title := t.title, description := t.description,
    assigned_to := t.assigned_to, assigned_by := t.assigned_by,
    department_id := t.department_id, status := t.status,
    due_date := t.due_date, progress := t.progress, updates := t.updates,
    created_at := t.created_at, updated_at := t.updated_at }

/-- `GET /tasks` (main.py lines 151-163): truthy filters only, sorted by
`created_at` descending. -/
def list_tasks (status assigned_to department_id : Option String) (s : Store) : List TaskOut :=
  let qstatus := if strTruthy status then status else none
  let qassigned := if strTruthy assigned_to then assigned_to else none
  let qdep := if strTruthy department_id then department_id else none
  (sortByCreatedDesc (s.tasks.filter (matchesTaskQuery qstatus qassigned qdep))).map taskOut

/-- The stored form of an update entry pushed by `add_task_update`:
`if not upd.get("created_at"): upd["created_at"] = datetime.now(...)`
(a `datetime` is always truthy, so only an omitted/`None` value is
defaulted). -/
def storedUpdateOf (now : Nat) (upd : Schemas.TaskUpdateEntry) : StoredUpdate :=
  { user_id := upd.user_id, note := upd.note, progress := upd.progress,
    created_at := upd.created_at.getD now }

/-- `POST /tasks/{task_id}/update` (main.py lines 166-174): `$push` the entry
onto `updates` and `$set` `updated_at`, in one `update_one`; 404 when the
filter matched nothing. -/
def add_task_update (now : Nat) (task_id : String) (upd : Schemas.TaskUpdateEntry)
    (s : Store) : Except HTTPError String × Store :=
  match oid task_id with
  | none => (.error ⟨400, "Invalid id format"⟩, s)
  | some tid =>
      let pushAndSet : TaskDoc → TaskDoc := fun t =>
        { t with updates := t.updates ++ [storedUpdateOf now upd], updated_at := now }
      if s.tasks.any (fun t => t._id = tid) then
        (.ok "Update added",
         { s with tasks := updateFirst (fun t => t._id = tid) pushAndSet s.tasks })
      else (.error ⟨404, "Task not found"⟩, s)

/-- `POST /tasks/{task_id}/status` (main.py lines 177-184): the status-enum
check runs before `oid(task_id)` is evaluated; then `$set` of `status` and
`updated_at` in one `update_one`; 404 when the filter matched nothing. -/
def set_task_status (now : Nat) (task_id status : String) (s : Store) :
    Except HTTPError String × Store :=
  if status ∉ Schemas.statusValues then (.error ⟨400, "Invalid status"⟩, s)
  else
    match oid task_id with
    | none => (.error ⟨400, "Invalid id format"⟩, s)
    | some tid =>
        let setStatus : TaskDoc → TaskDoc := fun t =>
          { t with status := status, updated_at := now }
        if s.tasks.any (fun t => t._id = tid) then
          (.ok "Status updated",
           { s with tasks := updateFirst (fun t => t._id = tid) setStatus s.tasks })
        else (.error ⟨404, "Task not found"⟩, s)

/-- The `GET /analytics/overview` response (main.py lines 188-202). -/
structure AnalyticsOverview where
  users : Nat
  tasks : Nat
  completed : Nat
  in_progress : Nat
  pending : Nat
  completion_rate : ℚ
deriving DecidableEq, Repr

/-- `GET /analytics/overview`: counts over the collections at call time, and
`(completed / total_tasks * 100) if total_tasks else 0.0`. -/
def analytics_overview (s : Store) : AnalyticsOverview :=
  let total_users := s.users.length
  let total_tasks := s.tasks.length
  let completed := s.tasks.countP (fun t => t.status = "COMPLETED")
  let in_progress := s.tasks.countP (fun t => t.status = "IN_PROGRESS")
  let pending := s.tasks.countP (fun t => t.status = "PENDING")
  { users := total_users, tasks := total_tasks, completed := completed,
    in_progress := in_progress, pending := pending,
    completion_rate :=
      if total_tasks ≠ 0 then (completed : ℚ) / (total_tasks : ℚ) * 100 else 0 }

/-! ## Validity predicates for the other fields of a raw `Task` body -/

/-- The raw `status` field, when present, is a member of `TaskStatus`. -/
def statusFieldOk (r : Schemas.TaskInput) : Prop :=
  ∀ st, r.status = some st → st ∈ Schemas.statusValues

/-- Every raw embedded update entry passes its own validation. -/
def updatesFieldOk (r : Schemas.TaskInput) : Prop :=
  ∀ e ∈ r.updates.getD [], Schemas.validateTaskUpdateEntry e = .ok e

/-! ## Sample values used by witnesses -/

/-- A concrete stand-in for the external bcrypt hasher. -/
def sampleHash (pw : String) : String := "h:" ++ pw

/-- A concrete stand-in for the external bcrypt verifier, consistent with
`sampleHash`. -/
def sampleVerify (pw stored : String) : Bool := stored == "h:" ++ pw

/-- A concrete validated registration payload. -/
def aliceReg : Schemas.UserRegister :=
  { name := "Alice", email := "alice@example.com", password := "pw1",
    role := "EMPLOYEE", department_id := none }

/-- The store before any document is inserted. -/
def emptyStore : Store := { users := [], tasks := [], nextId := 0 }

/-- The user document produced by registering Alice, used by login/listing
witnesses. -/
def aliceDoc : UserDoc :=
  { _id := 7, name := "Alice", email := "alice@example.com",
    password_hash := "h:pw1", role := "EMPLOYEE", department_id := none,
    created_at := 1, updated_at := 1 }

/-- A store holding exactly Alice. -/
def oneUserStore : Store := { users := [aliceDoc], tasks := [], nextId := 8 }

/-- A concrete task document used by task witnesses. -/
def taskDoc0 : TaskDoc :=
  { _id := 3, title := "Ship it", description := none, assigned_to := "7",
    assigned_by := "7", department_id := none, status := "PENDING",
    due_date := none, progress := 100, updates := [], created_at := 2,
    updated_at := 2 }

/-- A store holding exactly `taskDoc0`. -/
def oneTaskStore : Store := { users := [], tasks := [taskDoc0], nextId := 9 }

/-- A second, completed task. -/
def taskDoc1 : TaskDoc := { taskDoc0 with _id := 4, status := "COMPLETED" }

/-- A store with one user and two tasks, one of them completed. -/
def twoTaskStore : Store :=
  { users := [aliceDoc], tasks := [taskDoc0, taskDoc1], nextId := 9 }

/-! ## Helper lemmas -/

/-- In a list of users with pairwise-distinct emails, a user is determined by
its email. -/
theorem eq_of_mem_of_email_eq {l : List UserDoc}
    (hdis : l.Pairwise (fun a b => a.email ≠ b.email)) :
    ∀ u ∈ l, ∀ v ∈ l, u.email = v.email → u = v := by
  induction l with
  | nil => intro u hu; cases hu
  | cons a t ih =>
      intro u hu v hv he
      rcases List.pairwise_cons.mp hdis with ⟨ha, ht⟩
      rcases List.mem_cons.mp hu with rfl | hu' <;> rcases List.mem_cons.mp hv with rfl | hv'
      · rfl
      · exact absurd he (ha v hv')
      · exact absurd he.symm (ha u hu')
      · exact ih ht u hu' v hv' he

/-- `updateFirst` is the identity when nothing matches. -/
theorem updateFirst_eq_of_forall_not {α : Type} (p : α → Bool) (f : α → α)
    (l : List α) (h : ∀ x ∈ l, ¬ p x) : updateFirst p f l = l := by
  induction l with
  | nil => rfl
  | cons a t ih =>
      have ha : ¬ p a := h a (List.mem_cons_self a t)
      simp only [updateFirst, if_neg ha]
      exact congrArg (a :: ·) (ih fun x hx => h x (List.mem_cons_of_mem a hx))

/-- The selective map is the identity when nothing matches. -/
theorem map_ite_eq_of_forall_not {α : Type} (p : α → Bool) (f : α → α)
    (l : List α) (h : ∀ x ∈ l, ¬ p x) :
    l.map (fun x => if p x then f x else x) = l := by
  induction l with
  | nil => rfl
  | cons a t ih =>
      simp only [List.map_cons, if_neg (h a (List.mem_cons_self a t))]
      exact congrArg (a :: ·) (ih fun x hx => h x (List.mem_cons_of_mem a hx))

/-- When no two elements of `l` both match `p`, the Mongo update-first is the
pointwise map that rewrites exactly the matching element. -/
theorem updateFirst_eq_map {α : Type} (p : α → Bool) (f : α → α) (l : List α)
    (h : l.Pairwise (fun a b => ¬(p a = true ∧ p b = true))) :
    updateFirst p f l = l.map (fun x => if p x then f x else x) := by
  induction l with
  | nil => rfl
  | cons a t ih =>
      rcases List.pairwise_cons.mp h with ⟨ha, ht⟩
      by_cases hpa : p a
      · have htnone : ∀ x ∈ t, ¬ p x = true := fun x hx hpx => ha x hx ⟨hpa, hpx⟩
        simp only [updateFirst, if_pos hpa, List.map_cons, if_pos hpa]
        exact congrArg (f a :: ·) (map_ite_eq_of_forall_not p f t htnone).symm
      · simp only [updateFirst, if_neg hpa, List.map_cons, if_neg hpa]
        exact congrArg (a :: ·) (ih ht)

/-! ## Claims -/

/-- C1: for every store state and every registration input, `register` raises
the duplicate-email conflict error (HTTP 400, `"Email already registered"`)
iff the email of some stored user equals the input email exactly (case-sensitive),
regardless of the other input fields; otherwise it hashes the password,
inserts the user document with both timestamps set to the current time, and
returns the new id.  Consequently every registration preserves the invariant
that no two users share an email. -/
theorem register_duplicate_email_iff_and_invariant
    (hash : String → String) (now : Nat) (p : Schemas.UserRegister) (s : Store) :
    ((register hash now p s).1 = .error ⟨400, "Email already registered"⟩ ↔
       ∃ u ∈ s.users, u.email = p.email) ∧
    ((∀ u ∈ s.users, u.email ≠ p.email) →
       register hash now p s =
         (.ok (toString s.nextId),
          { users := s.users ++
              [{ _id := s.nextId, name := p.name, email := p.email,
                 password_hash := hash p.password, role := p.role,
                 department_id := p.department_id,
                 created_at := now, updated_at := now }],
            tasks := s.tasks, nextId := s.nextId + 1 })) ∧
    (s.users.Pairwise (fun a b => a.email ≠ b.email) →
       (register hash now p s).2.users.Pairwise (fun a b => a.email ≠ b.email)) := by
  cases hfind : get_user_by_email p.email s with
  | some u =>
      have hmem := List.mem_of_find?_eq_some hfind
      have hpred : u.email = p.email := by simpa using List.find?_some hfind
      refine ⟨?_, ?_, ?_⟩
      · refine ⟨fun _ => ⟨u, hmem, hpred⟩, fun _ => ?_⟩
        simp [register, hfind]
      · intro hnone
        exact absurd hpred (hnone u hmem)
      · intro hpair
        simpa only [register, hfind] using hpair
  | none =>
      have hnone : ∀ u ∈ s.users, u.email ≠ p.email := by
        intro u hu
        simpa using List.find?_eq_none.mp hfind u hu
      refine ⟨?_, ?_, ?_⟩
      · simp only [register, hfind]
        constructor
        · intro h; cases h
        · rintro ⟨u, hu, he⟩
          exact absurd he (hnone u hu)
      · intro _
        simp only [register, hfind]
      · intro hpair
        simp only [register, hfind]
        refine List.pairwise_append.mpr ⟨hpair, List.pairwise_singleton _ _, ?_⟩
        intro a ha b hb
        simp only [List.mem_singleton] at hb
        subst hb
        exact hnone a ha

/-- Witness for C1: registering Alice into the empty store succeeds with id
`"0"` and the resulting store has pairwise-distinct emails. -/
theorem register_duplicate_email_iff_and_invariant_witness :
    (∀ u ∈ emptyStore.users, u.email ≠ aliceReg.email) ∧
    (register sampleHash 5 aliceReg emptyStore).1 = .ok "0" ∧
    (register sampleHash 5 aliceReg emptyStore).2.users.Pairwise
      (fun a b => a.email ≠ b.email) := by
  have h := register_duplicate_email_iff_and_invariant sampleHash 5 aliceReg emptyStore
  have hd : ∀ u ∈ emptyStore.users, u.email ≠ aliceReg.email := by
    intro u hu; cases hu
  refine ⟨hd, ?_, h.2.2 List.Pairwise.nil⟩
  rw [h.2.1 hd]
  rfl

/-- C2: for every store state with pairwise-distinct emails (the invariant of
C1), `login` succeeds iff a user with the given email exists and the password
verifies against the stored hash of that user; both failure causes (absent email,
or non-verifying password) produce the identical `401 Invalid credentials`
error; on success the returned record is `userOut u` — a record with no
`password_hash` field whose store identifier is exposed under the key
`id`. -/
theorem login_success_iff_and_indistinguishable_failure
    (verify : String → String → Bool) (p : Schemas.UserLogin) (s : Store)
    (hdis : s.users.Pairwise (fun a b => a.email ≠ b.email)) :
    (∀ v, (login verify p s).1 = .ok v ↔
       ∃ u ∈ s.users, u.email = p.email ∧ verify p.password u.password_hash = true ∧
         v = userOut u) ∧
    ((¬ ∃ u ∈ s.users, u.email = p.email ∧ verify p.password u.password_hash = true) →
       (login verify p s).1 = .error ⟨401, "Invalid credentials"⟩) := by
  cases hfind : get_user_by_email p.email s with
  | none =>
      have hnone : ∀ u ∈ s.users, u.email ≠ p.email := by
        intro u hu
        simpa using List.find?_eq_none.mp hfind u hu
      constructor
      · intro v
        constructor
        · intro hv
          simp only [login, hfind] at hv
          cases hv
        · rintro ⟨u, hu, he, -, -⟩
          exact absurd he (hnone u hu)
      · intro _
        simp [login, hfind]
  | some u =>
      have hmem := List.mem_of_find?_eq_some hfind
      have hpred : u.email = p.email := by simpa using List.find?_some hfind
      cases hver : verify p.password u.password_hash with
      | true =>
          constructor
          · intro v
            constructor
            · intro hv
              simp only [login, hfind, hver, if_pos] at hv
              cases hv
              exact ⟨u, hmem, hpred, hver, rfl⟩
            · rintro ⟨u', hu', he', hver', rfl⟩
              have : u = u' := eq_of_mem_of_email_eq hdis u hmem u' hu' (hpred.trans he'.symm)
              subst this
              simp [login, hfind, hver]
          · intro hne
            exact absurd ⟨u, hmem, hpred, hver⟩ hne
      | false =>
          constructor
          · intro v
            constructor
            · intro hv
              simp only [login, hfind, hver] at hv
              cases hv
            · rintro ⟨u', hu', he', hver', -⟩
              have : u = u' := eq_of_mem_of_email_eq hdis u hmem u' hu' (hpred.trans he'.symm)
              subst this
              exact absurd hver' (by simp [hver])
          · intro _
            simp [login, hfind, hver]

/-- Witness for C2: logging Alice in with the right password succeeds and
returns her shaped record with `id = "7"`; a wrong password yields the
`401 Invalid credentials` error. -/
theorem login_success_iff_and_indistinguishable_failure_witness :
    (login sampleVerify { email := "alice@example.com", password := "pw1" } oneUserStore).1 =
      .ok (userOut aliceDoc) ∧
    (login sampleVerify { email := "alice@example.com", password := "bad" } oneUserStore).1 =
      .error ⟨401, "Invalid credentials"⟩ := by
  have hdis : oneUserStore.users.Pairwise (fun a b => a.email ≠ b.email) := by
    decide
  constructor
  · exact ((login_success_iff_and_indistinguishable_failure sampleVerify
      { email := "alice@example.com", password := "pw1" } oneUserStore hdis).1
        (userOut aliceDoc)).mpr ⟨aliceDoc, by decide, by decide, by decide, rfl⟩
  · exact (login_success_iff_and_indistinguishable_failure sampleVerify
      { email := "alice@example.com", password := "bad" } oneUserStore hdis).2
        (by decide)

/-- C3: for every existing task and every status in the enumerated set,
`set_task_status` succeeds, sets exactly the `status` field and refreshes
`updated_at` on that task, leaving every other field (in particular
`progress` and `updates`) and every other document unchanged; for any status
outside the set it returns the `400 Invalid status` error and the store is
unchanged. -/
theorem set_task_status_frame (now : Nat) (idStr status : String) (s : Store) (tid : Nat)
    (hdis : s.tasks.Pairwise (fun a b => a._id ≠ b._id))
    (hid : oid idStr = some tid)
    (hex : ∃ t ∈ s.tasks, t._id = tid) :
    (status ∈ Schemas.statusValues →
       set_task_status now idStr status s = (.ok "Status updated", { s with tasks := s.tasks.map (fun t => if t._id = tid then { t with status := status, updated_at := now } else t) })) ∧
    (status ∉ Schemas.statusValues →
       set_task_status now idStr status s = (.error ⟨400, "Invalid status"⟩, s)) := by
  have hany : s.tasks.any (fun t => t._id = tid) = true := by
    rcases hex with ⟨t, ht, htid⟩
    exact List.any_eq_true.mpr ⟨t, ht, by simpa using htid⟩
  constructor
  · intro hmemb
    have hcond : ¬ status ∉ Schemas.statusValues := not_not_intro hmemb
    simp only [set_task_status, if_neg hcond, hid, hany, if_pos]
    rw [updateFirst_eq_map]
    · simp
    · refine List.Pairwise.imp ?_ hdis
      intro a b hne hab
      rcases hab with ⟨ha, hb⟩
      simp only [decide_eq_true_eq] at ha hb
      exact hne (ha.trans hb.symm)
  · intro hnot
    simp only [set_task_status, if_pos hnot]

/-- Witness for C3: setting the status of task `3` to `COMPLETED` succeeds and
only `status`/`updated_at` change (`progress` stays `100`, `updates` stays
`[]`); setting it to `DONE` fails with `400 Invalid status` and leaves the
store untouched. -/
theorem set_task_status_frame_witness :
    set_task_status 10 "3" "COMPLETED" oneTaskStore =
      (.ok "Status updated",
       { oneTaskStore with tasks := [{ taskDoc0 with status := "COMPLETED", updated_at := 10 }] }) ∧
    set_task_status 10 "3" "DONE" oneTaskStore =
      (.error ⟨400, "Invalid status"⟩, oneTaskStore) := by
  have h1 := set_task_status_frame 10 "3" "COMPLETED" oneTaskStore 3
    (by decide) (by decide) ⟨taskDoc0, by decide, by decide⟩
  have h2 := set_task_status_frame 10 "3" "DONE" oneTaskStore 3
    (by decide) (by decide) ⟨taskDoc0, by decide, by decide⟩
  constructor
  · rw [h1.1 (by decide)]
    decide
  · exact h2.2 (by decide)

/-- C4: for every existing task and every valid `TaskUpdateEntry` body,
`add_task_update` appends the entry last to the `updates` sequence of the task
(preserving all prior entries in order) and refreshes `updated_at` to the
current time, leaving every other field and every other document unchanged;
the `created_at` of the appended entry is the caller-supplied value when present
and the current time exactly when omitted. -/
theorem add_task_update_append_frame (now : Nat) (idStr : String)
    (upd : Schemas.TaskUpdateEntry) (s : Store) (tid : Nat)
    (hdis : s.tasks.Pairwise (fun a b => a._id ≠ b._id))
    (hid : oid idStr = some tid)
    (hex : ∃ t ∈ s.tasks, t._id = tid)
    (hval : Schemas.validateTaskUpdateEntry upd = .ok upd) :
    add_task_update now idStr upd s =
      (.ok "Update added", { s with tasks := s.tasks.map (fun t => if t._id = tid then { t with updates := t.updates ++ [storedUpdateOf now upd], updated_at := now } else t) }) ∧
    (∀ c, upd.created_at = some c → (storedUpdateOf now upd).created_at = c) ∧
    (upd.created_at = none → (storedUpdateOf now upd).created_at = now) := by
  have hany : s.tasks.any (fun t => t._id = tid) = true := by
    rcases hex with ⟨t, ht, htid⟩
    exact List.any_eq_true.mpr ⟨t, ht, by simpa using htid⟩
  refine ⟨?_, ?_, ?_⟩
  · simp only [add_task_update, hid, hany, if_pos]
    rw [updateFirst_eq_map]
    · simp
    · refine List.Pairwise.imp ?_ hdis
      intro a b hne hab
      rcases hab with ⟨ha, hb⟩
      simp only [decide_eq_true_eq] at ha hb
      exact hne (ha.trans hb.symm)
  · intro c hc
    simp [storedUpdateOf, hc]
  · intro hc
    simp [storedUpdateOf, hc]

/-- Witness for C4: appending an update without `created_at` to task `3`
stores it with `created_at = now = 11` after the (empty) prior sequence, and
an update carrying `created_at = 4` keeps that value. -/
theorem add_task_update_append_frame_witness :
    add_task_update 11 "3" { user_id := "7" } oneTaskStore =
      (.ok "Update added",
       { oneTaskStore with tasks := [{ taskDoc0 with updates := [{ user_id := "7", note := none, progress := none, created_at := 11 }], updated_at := 11 }] }) ∧
    (storedUpdateOf 11 { user_id := "7", created_at := some 4 } : StoredUpdate).created_at = 4 := by
  have h1 := add_task_update_append_frame 11 "3" { user_id := "7" } oneTaskStore 3
    (by decide) (by decide) ⟨taskDoc0, by decide, by decide⟩ (by decide)
  have h2 := add_task_update_append_frame 11 "3" { user_id := "7", created_at := some 4 }
    oneTaskStore 3 (by decide) (by decide) ⟨taskDoc0, by decide, by decide⟩ (by decide)
  constructor
  · rw [h1.1]
    decide
  · exact h2.2.1 4 rfl

/-- C9: for every task id string, including malformed and non-existent ids,
a status outside the enumerated set makes `set_task_status` return the
`400 Invalid status` error with the store unchanged: the status check runs
before the id is parsed or the store consulted. -/
theorem set_task_status_invalid_status_first (now : Nat) (idStr status : String) (s : Store)
    (h : status ∉ Schemas.statusValues) :
    set_task_status now idStr status s = (.error ⟨400, "Invalid status"⟩, s) := by
  simp only [set_task_status, if_pos h]

/-- Witness for C9: with the malformed id `"zzz"` (not parseable by `oid`)
and the unknown status `"BOGUS"`, the handler returns `400 Invalid status`
and the store is untouched. -/
theorem set_task_status_invalid_status_first_witness :
    ("BOGUS" ∉ Schemas.statusValues) ∧ oid "zzz" = none ∧
    set_task_status 10 "zzz" "BOGUS" oneTaskStore =
      (.error ⟨400, "Invalid status"⟩, oneTaskStore) :=
  ⟨by decide, by decide,
   set_task_status_invalid_status_first 10 "zzz" "BOGUS" oneTaskStore (by decide)⟩

/-- C5: for every store state, the analytics overview reports the total user
count, the total task count and the per-status counts over the collections at
call time, and `completion_rate` is exactly `0` when the total task count is
zero and `completed / total * 100` otherwise. -/
theorem analytics_overview_spec (s : Store) :
    (analytics_overview s).users = s.users.length ∧
    (analytics_overview s).tasks = s.tasks.length ∧
    (analytics_overview s).completed = s.tasks.countP (fun t => t.status = "COMPLETED") ∧
    (analytics_overview s).in_progress = s.tasks.countP (fun t => t.status = "IN_PROGRESS") ∧
    (analytics_overview s).pending = s.tasks.countP (fun t => t.status = "PENDING") ∧
    (s.tasks.length = 0 → (analytics_overview s).completion_rate = 0) ∧
    (s.tasks.length ≠ 0 → (analytics_overview s).completion_rate =
       (s.tasks.countP (fun t => t.status = "COMPLETED") : ℚ) / (s.tasks.length : ℚ) * 100) := by
  refine ⟨rfl, rfl, rfl, rfl, rfl, ?_, ?_⟩
  · intro h
    simp [analytics_overview, h]
  · intro h
    simp [analytics_overview, h]

/-- Witness for C5: over the store with two tasks of which one is completed,
the overview reports 1 user, 2 tasks, 1 completed and a completion rate of
50; over the empty store the rate is exactly 0. -/
theorem analytics_overview_spec_witness :
    (analytics_overview twoTaskStore).users = 1 ∧
    (analytics_overview twoTaskStore).tasks = 2 ∧
    (analytics_overview twoTaskStore).completed = 1 ∧
    (analytics_overview twoTaskStore).completion_rate = 50 ∧
    (analytics_overview emptyStore).completion_rate = 0 := by
  have h := analytics_overview_spec twoTaskStore
  have h0 := analytics_overview_spec emptyStore
  have hc : twoTaskStore.tasks.countP (fun t => t.status = "COMPLETED") = 1 := by decide
  have hl : twoTaskStore.tasks.length = 2 := by decide
  refine ⟨?_, ?_, ?_, ?_, h0.2.2.2.2.2.1 rfl⟩
  · rw [h.1]; decide
  · rw [h.2.1]; decide
  · rw [h.2.2.1]; decide
  · rw [h.2.2.2.2.2.2 (by decide), hc, hl]
    norm_num

/-- The embedded-update error accumulator of `Schemas.validateTask` collects
nothing when every entry validates. -/
theorem foldr_validate_eq_nil (l : List Schemas.TaskUpdateEntry)
    (h : ∀ e ∈ l, Schemas.validateTaskUpdateEntry e = .ok e) :
    l.foldr (fun e acc => match Schemas.validateTaskUpdateEntry e with
      | .ok _ => acc
      | .error es => es ++ acc) [] = ([] : List String) := by
  induction l with
  | nil => rfl
  | cons a t ih =>
      simp only [List.foldr_cons, h a (List.mem_cons_self a t)]
      exact ih (fun e he => h e (List.mem_cons_of_mem a he))

/-- C6: entity validation rejects a `progress` outside `[0,100]` with a
`ValidationError` on both `Task` and `TaskUpdateEntry`; it accepts the
boundary values `0` and `100`; and an omitted `Task.progress` defaults to
`0`. -/
theorem progress_bounds_validation (r : Schemas.TaskInput)
    (e : Schemas.TaskUpdateEntry) (p : Int) :
    (r.progress = some p → (p < 0 ∨ 100 < p) →
       ∃ errs, Schemas.validateTask r = .error errs ∧ errs ≠ []) ∧
    (e.progress = some p → (p < 0 ∨ 100 < p) →
       Schemas.validateTaskUpdateEntry e =
         .error ["progress: input should be in [0, 100]"]) ∧
    ((e.progress = none ∨ e.progress = some 0 ∨ e.progress = some 100) →
       Schemas.validateTaskUpdateEntry e = .ok e) ∧
    (statusFieldOk r → updatesFieldOk r →
       ((r.progress = some 0 ∨ r.progress = some 100) →
          ∃ t, Schemas.validateTask r = .ok t ∧ t.progress = r.progress.getD 0) ∧
       (r.progress = none → ∃ t, Schemas.validateTask r = .ok t ∧ t.progress = 0)) := by
  refine ⟨?_, ?_, ?_, ?_⟩
  · intro hp hout
    simp only [Schemas.validateTask, hp]
    rw [if_pos hout]
    rw [if_neg]
    · exact ⟨_, rfl, by simp⟩
    · simp
  · intro hp hout
    simp only [Schemas.validateTaskUpdateEntry, hp]
    rw [if_pos hout]
    rfl
  · rintro (hp | hp | hp) <;>
      simp [Schemas.validateTaskUpdateEntry, hp]
  · intro hst hupd
    have hstatus : (match r.status with
        | some st => if st ∈ Schemas.statusValues then [] else ["status: invalid enum member"]
        | none => ([] : List String)) = [] := by
      cases hs : r.status with
      | none => rfl
      | some st => simp [hst st hs]
    have hupds := foldr_validate_eq_nil (r.updates.getD []) hupd
    constructor
    · rintro (hp | hp) <;>
        · simp only [Schemas.validateTask, hp, hstatus, hupds]
          norm_num
    · intro hp
      simp only [Schemas.validateTask, hp, hstatus, hupds]
      norm_num

/-- Witness for C6: `progress = 150` on a task body is rejected with a
non-empty validation error, `progress = 100` on an update entry is accepted,
and a task body without `progress` validates with `progress = 0`. -/
theorem progress_bounds_validation_witness :
    (∃ errs, Schemas.validateTask
        { title := "T", assigned_to := "7", assigned_by := "7", progress := some 150 } =
          .error errs ∧ errs ≠ []) ∧
    Schemas.validateTaskUpdateEntry { user_id := "7", progress := some 100 } =
      .ok { user_id := "7", progress := some 100 } ∧
    (∃ t, Schemas.validateTask { title := "T", assigned_to := "7", assigned_by := "7" } =
        .ok t ∧ t.progress = 0) := by
  have h1 := progress_bounds_validation
    { title := "T", assigned_to := "7", assigned_by := "7", progress := some 150 }
    { user_id := "7", progress := some 100 } 150
  have h2 := progress_bounds_validation
    { title := "T", assigned_to := "7", assigned_by := "7" } { user_id := "7" } 0
  have hs : statusFieldOk { title := "T", assigned_to := "7", assigned_by := "7" } := by
    intro st h; cases h
  have hu : updatesFieldOk { title := "T", assigned_to := "7", assigned_by := "7" } := by
    intro e he; cases he
  exact ⟨h1.1 rfl (by norm_num), h1.2.2.1 (Or.inr (Or.inr rfl)),
    (h2.2.2.2 hs hu).2 rfl⟩

/-- A non-empty `some` value passes the Python truthiness test unchanged. -/
theorem truthy_filter_id (o : Option String)
    (h : o = none ∨ ∃ x, o = some x ∧ x ≠ "") :
    (if strTruthy o then o else none) = o := by
  rcases h with rfl | ⟨x, rfl, hx⟩
  · rfl
  · have hxe : x.isEmpty = false := by
      rw [Bool.eq_false_iff]
      intro h
      exact hx ((String.isEmpty_iff x).mp h)
    simp [strTruthy, hxe]

/-- Unfolding of the user query match into per-filter exact-equality
constraints. -/
theorem matchesUserQuery_eq_true_iff (qr qd : Option String) (u : UserDoc) :
    matchesUserQuery qr qd u = true ↔
      (∀ x, qr = some x → u.role = x) ∧
      (∀ x, qd = some x → u.department_id = some x) := by
  cases qr <;> cases qd <;> simp [matchesUserQuery]

/-- C7: for every store state and every combination of the optional `role`
and `department_id` filters (each either absent or a non-empty string, as
sent in a query parameter), `list_users` returns exactly the users matching
all supplied filters by exact equality (logical AND, absent filter no
constraint), each shaped as `userOut u` — `password_hash` removed, store
identifier exposed under `id`. -/
theorem list_users_filters_and_shape (role dep : Option String) (s : Store) (v : UserOut)
    (hrole : role = none ∨ ∃ r, role = some r ∧ r ≠ "")
    (hdep : dep = none ∨ ∃ d, dep = some d ∧ d ≠ "") :
    v ∈ list_users role dep s ↔
      ∃ u ∈ s.users, (∀ x, role = some x → u.role = x) ∧
        (∀ x, dep = some x → u.department_id = some x) ∧ v = userOut u := by
  simp only [list_users, truthy_filter_id role hrole, truthy_filter_id dep hdep,
    List.mem_map, List.mem_filter]
  constructor
  · rintro ⟨u, ⟨hu, hm⟩, rfl⟩
    rcases (matchesUserQuery_eq_true_iff role dep u).mp hm with ⟨h1, h2⟩
    exact ⟨u, hu, h1, h2, rfl⟩
  · rintro ⟨u, hu, h1, h2, rfl⟩
    exact ⟨u, ⟨hu, (matchesUserQuery_eq_true_iff role dep u).mpr ⟨h1, h2⟩⟩, rfl⟩

/-- Witness for C7: filtering the two-document user store by
`role = "EMPLOYEE"` returns exactly the shaped record of Alice (`id = "7"`, no
`password_hash` field), and filtering by `role = "MD"` returns nothing. -/
theorem list_users_filters_and_shape_witness :
    (userOut aliceDoc ∈ list_users (some "EMPLOYEE") none oneUserStore) ∧
    userOut aliceDoc = { id := "7", name := "Alice", email := "alice@example.com", role := "EMPLOYEE", department_id := none, created_at := 1, updated_at := 1 } ∧
    (∀ v, v ∉ list_users (some "MD") none oneUserStore) := by
  have hflt : (some "EMPLOYEE" : Option String) = none ∨
      ∃ r, (some "EMPLOYEE" : Option String) = some r ∧ r ≠ "" :=
    Or.inr ⟨"EMPLOYEE", rfl, by decide⟩
  have hnone : (none : Option String) = none ∨
      ∃ d, (none : Option String) = some d ∧ d ≠ "" := Or.inl rfl
  refine ⟨?_, by decide, ?_⟩
  · refine (list_users_filters_and_shape (some "EMPLOYEE") none oneUserStore
      (userOut aliceDoc) hflt hnone).mpr ⟨aliceDoc, ?_, ?_, ?_, rfl⟩
    · decide
    · intro x hx
      cases hx
      decide
    · intro x hx
      cases hx
  · intro v hv
    have hmd : (some "MD" : Option String) = none ∨
        ∃ r, (some "MD" : Option String) = some r ∧ r ≠ "" :=
      Or.inr ⟨"MD", rfl, by decide⟩
    rcases (list_users_filters_and_shape (some "MD") none oneUserStore v hmd hnone).mp hv
      with ⟨u, hu, h1, -, -⟩
    have : u = aliceDoc := by
      rcases List.mem_cons.mp hu with rfl | h
      · rfl
      · cases h
    subst this
    have := h1 "MD" rfl
    exact absurd this (by decide)

/-- C10: supplying an empty string as any filter of `list_users` or
`list_tasks` behaves exactly as if the filter were absent — the handler adds
a query key only for a truthy value, so the empty-string filter imposes no
constraint instead of matching documents whose field is `""`. -/
theorem empty_string_filter_ignored (role dep status assigned : Option String) (s : Store) :
    list_users (some "") dep s = list_users none dep s ∧
    list_users role (some "") s = list_users role none s ∧
    list_tasks (some "") assigned dep s = list_tasks none assigned dep s ∧
    list_tasks status (some "") dep s = list_tasks status none dep s ∧
    list_tasks status assigned (some "") s = list_tasks status assigned none s :=
  ⟨rfl, rfl, rfl, rfl, rfl⟩

/-- Counterexample to C8: a registration body whose `name` is the empty
string is ACCEPTED by entity validation (no `ValidationError`), because
`UserRegister.name` is a plain unconstrained `str` in schemas.py. -/
theorem empty_name_registration_accepted :
    Schemas.validateUserRegister { name := "", email := "bob@example.com", password := "pw2" } =
      .ok { name := "", email := "bob@example.com", password := "pw2", role := "EMPLOYEE", department_id := none } := by
  decide

/-- C8 (amended): entity validation places no constraint on the `name` field
of a registration: any input whose email passes the format check and whose
role, if present, is a valid enum member validates successfully with the
name — empty or not — preserved, so an empty-name registration does reach
the store. -/
theorem register_validation_name_unconstrained (r : Schemas.UserRegisterInput)
    (hmail : Schemas.isValidEmail r.email = true)
    (hrole : ∀ ro, r.role = some ro → ro ∈ Schemas.roleValues) :
    ∃ v, Schemas.validateUserRegister r = .ok v ∧ v.name = r.name := by
  have hre : (match r.role with
      | some ro => if ro ∈ Schemas.roleValues then [] else ["role: invalid enum member"]
      | none => ([] : List String)) = [] := by
    cases hr : r.role with
    | none => rfl
    | some ro => simp [hrole ro hr]
  simp [Schemas.validateUserRegister, hmail, hre]

/-- Witness for the amended C8: the concrete empty-name registration body for
`carol@example.com` validates successfully with `name = ""`. -/
theorem register_validation_name_unconstrained_witness :
    Schemas.isValidEmail "carol@example.com" = true ∧
    (∃ v, Schemas.validateUserRegister
        { name := "", email := "carol@example.com", password := "pw3" } =
          .ok v ∧ v.name = "") := by
  refine ⟨by decide, ?_⟩
  exact register_validation_name_unconstrained
    { name := "", email := "carol@example.com", password := "pw3" }
    (by decide) (fun ro h => by cases h)
